import Mathlib

/-!
Verification development for the scikit-fem core: element transforms
(`skfem/element.py`) and the interior basis orchestrator
(`skfem/assembly/global_basis/interior_basis.py`).

Arrays are embedded as functions over `Fin`-indexed axes with rational
entries; `np.einsum` contractions become `Finset` sums over the contracted
axis; array shapes become types.  A batch of reference points has `nqp`
points, the mesh has `nel` elements (the `tind = None` full batch), and the
spatial dimension is `d`.
-/

namespace Skfem

/-- Mesh interface consumed by the core (read-only): element count `nt`,
element-to-vertex connectivity `t` (row, column), element-to-face table
`t2f` (local face index, element) and the first row `f2t[0, :]` of the
face-to-element adjacency. -/
structure Mesh where
  nt : ℕ
  t : ℕ → ℕ → ℕ
  t2f : ℕ → ℕ → ℕ
  f2t0 : ℕ → ℕ

/-- Mapping interface consumed by the core: Jacobian `DF`, inverse Jacobian
`invDF` (both indexed `[i, j, element, point]`), Jacobian determinant
`detDF` (indexed `[element, point]`), physical coordinates `F`, and the
mesh the mapping was built from. -/
structure Mapping (d nel nqp : ℕ) where
  mesh : Mesh
  DF : Fin d → Fin d → Fin nel → Fin nqp → ℚ
  invDF : Fin d → Fin d → Fin nel → Fin nqp → ℚ
  detDF : Fin nel → Fin nqp → ℚ
  F : Fin d → Fin nel → Fin nqp → ℚ

/-- The Jacobian at one (element, point) pair, as a matrix. -/
def DFmat {d nel nqp : ℕ} (mp : Mapping d nel nqp) (k : Fin nel) (l : Fin nqp) :
    Matrix (Fin d) (Fin d) ℚ :=
  Matrix.of fun i j => mp.DF i j k l

/-- The inverse Jacobian at one (element, point) pair, as a matrix. -/
def invDFmat {d nel nqp : ℕ} (mp : Mapping d nel nqp) (k : Fin nel) (l : Fin nqp) :
    Matrix (Fin d) (Fin d) ℚ :=
  Matrix.of fun i j => mp.invDF i j k l

namespace ElementH1

/-- `ElementH1.gbasis`, value part, `len(X.shape) == 2` branch:
`np.broadcast_to(phi, (invDF.shape[2], invDF.shape[3]))`. -/
def gbasis_val {nel nqp : ℕ} (phi : Fin nqp → ℚ) : Fin nel → Fin nqp → ℚ :=
  fun _ l => phi l

/-- `ElementH1.gbasis`, derivative part, `len(X.shape) == 2` branch:
`np.einsum('ijkl,il->jkl', invDF, dphi)`. -/
def gbasis_der2 {d nel nqp : ℕ} (mp : Mapping d nel nqp)
    (dphi : Fin d → Fin nqp → ℚ) : Fin d → Fin nel → Fin nqp → ℚ :=
  fun j k l => ∑ i, mp.invDF i j k l * dphi i l

/-- `ElementH1.gbasis`, derivative part, `len(X.shape) == 3` branch (the
reference gradient carries an element axis):
`np.einsum('ijkl,ikl->jkl', invDF, dphi)`. -/
def gbasis_der3 {d nel nqp : ℕ} (mp : Mapping d nel nqp)
    (dphi : Fin d → Fin nel → Fin nqp → ℚ) : Fin d → Fin nel → Fin nqp → ℚ :=
  fun j k l => ∑ i, mp.invDF i j k l * dphi i k l

end ElementH1

namespace ElementHdiv

/-- `ElementHdiv.orient` at one element `k`:
`-1 + 2*(mesh.f2t[0, mesh.t2f[i, :]] == np.arange(mesh.t.shape[1]))`. -/
def orientAt (m : Mesh) (i k : ℕ) : ℤ :=
  -1 + 2 * (if m.f2t0 (m.t2f i k) = k then 1 else 0)

/-- `ElementHdiv.orient`: the full per-element sign array.  The source
carries a `TODO fix tind` comment: the argument `tind` is ignored and the
array always ranges over every mesh element. -/
def orient (m : Mesh) (i : ℕ) (tind : Option (List ℕ)) : List ℤ :=
  (List.range m.nt).map (orientAt m i)

/-- `ElementHdiv.gbasis`, value part:
`np.einsum('ijkl,jl,kl->ikl', DF, phi, 1/np.abs(detDF)*orient[:, None])`. -/
def gbasis_u {d nel nqp : ℕ} (mp : Mapping d nel nqp)
    (phi : Fin d → Fin nqp → ℚ) (i : ℕ) : Fin d → Fin nel → Fin nqp → ℚ :=
  fun a k l => ∑ j, mp.DF a j k l * phi j l *
    (1 / |mp.detDF k l| * ((orientAt mp.mesh i k.val : ℤ) : ℚ))

/-- `ElementHdiv.gbasis`, derivative part:
`dphi/(np.abs(detDF)*orient[:, None])`. -/
def gbasis_du {d nel nqp : ℕ} (mp : Mapping d nel nqp)
    (dphi : Fin nqp → ℚ) (i : ℕ) : Fin nel → Fin nqp → ℚ :=
  fun k l => dphi l / (|mp.detDF k l| * ((orientAt mp.mesh i k.val : ℤ) : ℚ))

end ElementHdiv

namespace ElementTriP1

/-- `ElementTriP1.lbasis`: degree-1 scalar basis on the reference triangle;
local indices outside `{0, 1, 2}` raise (`none`).  The `0*x` terms of the
source only shape arrays and are dropped (shapes are types here). -/
def lbasis {nqp : ℕ} (X : Fin 2 → Fin nqp → ℚ) (i : ℕ) :
    Option ((Fin nqp → ℚ) × (Fin 2 → Fin nqp → ℚ)) :=
  let x := X 0
  let y := X 1
  match i with
  | 0 => some (fun l => 1 - x l - y l, fun _ _ => -1)
  | 1 => some (fun l => x l, fun j _ => if j.val = 0 then 1 else 0)
  | 2 => some (fun l => y l, fun j _ => if j.val = 0 then 0 else 1)
  | _ => none

end ElementTriP1

namespace ElementTriP0

/-- `ElementTriP0.lbasis`: the source returns the constant basis for every
local index `i`, with no branching and no failure case. -/
def lbasis {nqp : ℕ} (X : Fin 2 → Fin nqp → ℚ) (i : ℕ) :
    Option ((Fin nqp → ℚ) × (Fin 2 → Fin nqp → ℚ)) :=
  some (fun _ => 1, fun _ _ => 0)

end ElementTriP0

namespace ElementTriRT0

/-- `ElementTriRT0.lbasis`: lowest Raviart-Thomas basis on the triangle,
vector-valued with scalar reference divergence. -/
def lbasis {nqp : ℕ} (X : Fin 2 → Fin nqp → ℚ) (i : ℕ) :
    Option ((Fin 2 → Fin nqp → ℚ) × (Fin nqp → ℚ)) :=
  let x := X 0
  let y := X 1
  match i with
  | 0 => some (fun j l => if j.val = 0 then x l else y l - 1, fun _ => 2)
  | 1 => some (fun j l => if j.val = 0 then x l else y l, fun _ => 2)
  | 2 => some (fun j l => if j.val = 0 then x l - 1 else y l, fun _ => 2)
  | _ => none

end ElementTriRT0

namespace ElementQ1

/-- `ElementQ1.lbasis`: bilinear basis on the reference quadrilateral. -/
def lbasis {nqp : ℕ} (X : Fin 2 → Fin nqp → ℚ) (i : ℕ) :
    Option ((Fin nqp → ℚ) × (Fin 2 → Fin nqp → ℚ)) :=
  let x := X 0
  let y := X 1
  match i with
  | 0 => some (fun l => 1/4 * (1 - x l) * (1 - y l),
      fun j l => if j.val = 0 then 1/4 * (-1 + y l) else 1/4 * (-1 + x l))
  | 1 => some (fun l => 1/4 * (1 + x l) * (1 - y l),
      fun j l => if j.val = 0 then 1/4 * (1 - y l) else 1/4 * (-1 - x l))
  | 2 => some (fun l => 1/4 * (1 + x l) * (1 + y l),
      fun j l => if j.val = 0 then 1/4 * (1 + y l) else 1/4 * (1 + x l))
  | 3 => some (fun l => 1/4 * (1 - x l) * (1 + y l),
      fun j l => if j.val = 0 then 1/4 * (-1 - y l) else 1/4 * (1 - x l))
  | _ => none

end ElementQ1

namespace ElementQ2

/-- `ElementQ2.lbasis`: biquadratic basis on the reference quadrilateral. -/
def lbasis {nqp : ℕ} (X : Fin 2 → Fin nqp → ℚ) (i : ℕ) :
    Option ((Fin nqp → ℚ) × (Fin 2 → Fin nqp → ℚ)) :=
  let x := X 0
  let y := X 1
  match i with
  | 0 => some (fun l => 1/4 * (x l ^ 2 - x l) * (y l ^ 2 - y l),
      fun j l => if j.val = 0
        then ((-1 + 2 * x l) * (-1 + y l) * y l) / 4
        else ((-1 + x l) * x l * (-1 + 2 * y l)) / 4)
  | 1 => some (fun l => 1/4 * (x l ^ 2 + x l) * (y l ^ 2 - y l),
      fun j l => if j.val = 0
        then ((1 + 2 * x l) * (-1 + y l) * y l) / 4
        else (x l * (1 + x l) * (-1 + 2 * y l)) / 4)
  | 2 => some (fun l => 1/4 * (x l ^ 2 + x l) * (y l ^ 2 + y l),
      fun j l => if j.val = 0
        then ((1 + 2 * x l) * y l * (1 + y l)) / 4
        else (x l * (1 + x l) * (1 + 2 * y l)) / 4)
  | 3 => some (fun l => 1/4 * (x l ^ 2 - x l) * (y l ^ 2 + y l),
      fun j l => if j.val = 0
        then ((-1 + 2 * x l) * y l * (1 + y l)) / 4
        else ((-1 + x l) * x l * (1 + 2 * y l)) / 4)
  | 4 => some (fun l => 1/2 * (y l ^ 2 - y l) * (1 - x l ^ 2),
      fun j l => if j.val = 0
        then -(x l * (-1 + y l) * y l)
        else -((-1 + x l ^ 2) * (-1 + 2 * y l)) / 2)
  | 5 => some (fun l => 1/2 * (x l ^ 2 + x l) * (1 - y l ^ 2),
      fun j l => if j.val = 0
        then -((1 + 2 * x l) * (-1 + y l ^ 2)) / 2
        else -(x l * (1 + x l) * y l))
  | 6 => some (fun l => 1/2 * (y l ^ 2 + y l) * (1 - x l ^ 2),
      fun j l => if j.val = 0
        then -(x l * y l * (1 + y l))
        else -((-1 + x l ^ 2) * (1 + 2 * y l)) / 2)
  | 7 => some (fun l => 1/2 * (x l ^ 2 - x l) * (1 - y l ^ 2),
      fun j l => if j.val = 0
        then -((-1 + 2 * x l) * (-1 + y l ^ 2)) / 2
        else -((-1 + x l) * x l * y l))
  | 8 => some (fun l => (1 - x l ^ 2) * (1 - y l ^ 2),
      fun j l => if j.val = 0
        then 2 * x l * (-1 + y l ^ 2)
        else 2 * (-1 + x l ^ 2) * y l)
  | _ => none

end ElementQ2

namespace ElementTetP0

/-- `ElementTetP0.lbasis`: the source returns the constant basis for every
local index `i`, with no branching and no failure case. -/
def lbasis {nqp : ℕ} (X : Fin 3 → Fin nqp → ℚ) (i : ℕ) :
    Option ((Fin nqp → ℚ) × (Fin 3 → Fin nqp → ℚ)) :=
  some (fun _ => 1, fun _ _ => 0)

end ElementTetP0

namespace ElementTetRT0

/-- `ElementTetRT0.lbasis`: lowest Raviart-Thomas basis on the reference
tetrahedron. -/
def lbasis {nqp : ℕ} (X : Fin 3 → Fin nqp → ℚ) (i : ℕ) :
    Option ((Fin 3 → Fin nqp → ℚ) × (Fin nqp → ℚ)) :=
  let x := X 0
  let y := X 1
  let z := X 2
  match i with
  | 0 => some (fun j l => if j.val = 0 then x l else if j.val = 1 then y l else z l - 1,
      fun _ => 3)
  | 1 => some (fun j l => if j.val = 0 then x l else if j.val = 1 then y l - 1 else z l,
      fun _ => 3)
  | 2 => some (fun j l => if j.val = 0 then x l - 1 else if j.val = 1 then y l else z l,
      fun _ => 3)
  | 3 => some (fun j l => if j.val = 0 then x l else if j.val = 1 then y l else z l,
      fun _ => 3)
  | _ => none

end ElementTetRT0

namespace ElementTetN0

/-- `ElementTetN0.lbasis`: lowest Nedelec basis on the reference
tetrahedron, vector-valued with vector reference curl. -/
def lbasis {nqp : ℕ} (X : Fin 3 → Fin nqp → ℚ) (i : ℕ) :
    Option ((Fin 3 → Fin nqp → ℚ) × (Fin 3 → Fin nqp → ℚ)) :=
  let x := X 0
  let y := X 1
  let z := X 2
  match i with
  | 0 => some (fun j l => if j.val = 0 then 1 - z l - y l else x l,
      fun j _ => if j.val = 0 then 0 else if j.val = 1 then -2 else 2)
  | 1 => some (fun j l => if j.val = 0 then -y l else if j.val = 1 then x l else 0,
      fun j _ => if j.val = 0 then 0 else if j.val = 1 then 0 else 2)
  | 2 => some (fun j l => if j.val = 0 then y l else if j.val = 1 then 1 - z l - x l else y l,
      fun j _ => if j.val = 0 then 2 else if j.val = 1 then 0 else -2)
  | 3 => some (fun j l => if j.val = 0 then z l else if j.val = 1 then z l else 1 - x l - y l,
      fun j _ => if j.val = 0 then -2 else if j.val = 1 then 2 else 0)
  | 4 => some (fun j l => if j.val = 0 then -z l else if j.val = 1 then 0 else x l,
      fun j _ => if j.val = 0 then 0 else if j.val = 1 then -2 else 0)
  | 5 => some (fun j l => if j.val = 0 then 0 else if j.val = 1 then -z l else y l,
      fun j _ => if j.val = 0 then 2 else if j.val = 1 then 0 else 0)
  | _ => none

end ElementTetN0

/-- The value part of `ElementTriP1.lbasis` (zero on the failure branch),
used to state partition-of-unity sums. -/
def triP1phi {nqp : ℕ} (X : Fin 2 → Fin nqp → ℚ) (i : ℕ) : Fin nqp → ℚ :=
  match ElementTriP1.lbasis X i with
  | some pd => pd.1
  | none => fun _ => 0

/-- The reference-gradient part of `ElementTriP1.lbasis` (zero on the
failure branch). -/
def triP1dphi {nqp : ℕ} (X : Fin 2 → Fin nqp → ℚ) (i : ℕ) :
    Fin 2 → Fin nqp → ℚ :=
  match ElementTriP1.lbasis X i with
  | some pd => pd.2
  | none => fun _ _ => 0

namespace ElementVectorH1

/-- `ElementVectorH1.gbasis`: decompose the global index as
`ind = int(np.floor(i/dim))`, `n = i - dim*ind`, evaluate the wrapped
element's `gbasis` at `ind` and place its value and derivative into
component `n` of zero arrays of width `d`.  The wrapped element's output
shapes are `(nel, nqp)` for the value and `(dv, nel, nqp)` for the
derivative. -/
def gbasis {nel nqp dv : ℕ} (d i : ℕ)
    (wrapped : ℕ → ((Fin nel → Fin nqp → ℚ) × (Fin dv → Fin nel → Fin nqp → ℚ)))
    (c : Fin d) :
    (Fin nel → Fin nqp → ℚ) × (Fin dv → Fin nel → Fin nqp → ℚ) :=
  let ind := i / d
  let n := i - d * ind
  let pd := wrapped ind
  (if c.val = n then pd.1 else fun _ _ => 0,
   if c.val = n then pd.2 else fun _ _ _ => 0)

end ElementVectorH1

namespace ElementHcurl

/-- The local edge endpoint tables of `ElementHcurl.orient`:
`t1 = [0, 1, 0, 0, 1, 2][i]`, `t2 = [1, 2, 2, 3, 3, 3][i]`. -/
def t1tab (i : ℕ) : ℕ := [0, 1, 0, 0, 1, 2].getD i 0

/-- Second endpoint table of `ElementHcurl.orient`. -/
def t2tab (i : ℕ) : ℕ := [1, 2, 2, 3, 3, 3].getD i 0

/-- `ElementHcurl.orient` at one element `k`:
`1 - 2*(mesh.t[t1, :] > mesh.t[t2, :])`. -/
def orientAt (m : Mesh) (i k : ℕ) : ℤ :=
  1 - 2 * (if m.t (t1tab i) k > m.t (t2tab i) k then 1 else 0)

/-- `ElementHcurl.orient`: the full per-element sign array.  The source
carries a `TODO fix tind` comment: the argument `tind` is ignored and the
array always ranges over every mesh element. -/
def orient (m : Mesh) (i : ℕ) (tind : Option (List ℕ)) : List ℤ :=
  (List.range m.nt).map (orientAt m i)

end ElementHcurl

/-- `Element.orient` (the base class): ones, one per entry of `tind` when a
subset is given (`1 + 0*tind`), else one per mesh element
(`1 + 0*mapping.mesh.t[0, :]`).  This is the positional batching contract
the subclasses are supposed to honour. -/
def elementOrientBase (m : Mesh) (tind : Option (List ℕ)) : List ℤ :=
  match tind with
  | none => (List.range m.nt).map (fun k => 1 + 0 * (m.t 0 k : ℤ))
  | some l => l.map (fun tk => 1 + 0 * (tk : ℤ))

namespace InteriorBasis

/-- `np.tile(self.W, (self.nelems, 1))`: the quadrature weights repeated
along a leading element axis. -/
def tileW {nel nqp : ℕ} (W : Fin nqp → ℚ) : Fin nel → Fin nqp → ℚ :=
  fun _ q => W q

/-- The `InteriorBasis.__init__` integration-weight array:
`self.dx = np.abs(self.mapping.detDF(self.X)) * np.tile(self.W, (self.nelems, 1))`,
one entry per (mesh element, quadrature point) pair. -/
def dx {d nel nqp : ℕ} (mp : Mapping d nel nqp) (W : Fin nqp → ℚ) :
    Fin nel → Fin nqp → ℚ :=
  fun e q => |mp.detDF e q| * tileW W e q

end InteriorBasis

namespace ElementH2

/-- The cached inverse Vandermonde matrix of `ElementH2`, indexed
`V[element, itr, i]`. -/
def VMat : Type := ℕ → ℕ → ℕ → ℚ

/-- The power-basis families of `ElementH2`, produced by symbolic
differentiation of monomials (`_pbasis_init`, an external symbolic-engine
artifact): the basis itself and its first and second derivatives, each a
family of two-variable functions. -/
structure PBasis where
  pb : ℕ → ℚ → ℚ → ℚ
  pdx : ℕ → ℚ → ℚ → ℚ
  pdy : ℕ → ℚ → ℚ → ℚ
  pdxx : ℕ → ℚ → ℚ → ℚ
  pdxy : ℕ → ℚ → ℚ → ℚ
  pdyy : ℕ → ℚ → ℚ → ℚ

/-- An accumulated `ElementH2.gbasis` loop sum
`sum over itr of V[:, itr, i][:, None] * f[itr](x[0], x[1])` for one of the
power-basis families `f`, at element `k` and point `q`. -/
def loopSum {nel nqp : ℕ} (N : ℕ) (V : VMat) (f : ℕ → ℚ → ℚ → ℚ)
    (x : Fin 2 → Fin nel → Fin nqp → ℚ) (i : ℕ) (k : Fin nel) (q : Fin nqp) : ℚ :=
  ∑ itr ∈ Finset.range N, V k.val itr i * f itr (x 0 k q) (x 1 k q)

/-- NaN-aware scalars: `none` is `np.nan`; addition propagates NaN. -/
def qadd : Option ℚ → Option ℚ → Option ℚ :=
  fun a b =>
    match a, b with
    | some v, some w => some (v + w)
    | _, _ => none

/-- `np.nan`. -/
def qnan : Option ℚ := none

/-- The value array `u` of `ElementH2.gbasis`: the loop accumulates
`V[:, itr, i][:, None] * self._pbasis[itr](x[0], x[1])` over `itr` starting
from zeros. -/
def gbasis_u {nel nqp : ℕ} (N : ℕ) (V : VMat) (P : PBasis)
    (x : Fin 2 → Fin nel → Fin nqp → ℚ) (i : ℕ) : Fin nel → Fin nqp → ℚ :=
  fun k q => loopSum N V P.pb x i k q

/-- The derivative array `du` of `ElementH2.gbasis`, shape `(2, 2, 2)` plus
the point-batch shape.  The loop fills `du[0,0,0]` (dx), `du[0,0,1]` (dy),
`du[1,0,0]` (dxx), `du[1,0,1]` (dxy) and `du[1,1,1]` (dyy); afterwards
`du[1,1,0] = du[1,0,1]` (dxy = dyx) and `du[0,1,0]`, `du[0,1,1]` are
overwritten with `u + np.nan`. -/
def gbasis_du {nel nqp : ℕ} (N : ℕ) (V : VMat) (P : PBasis)
    (x : Fin 2 → Fin nel → Fin nqp → ℚ) (i : ℕ) :
    Fin 2 → Fin 2 → Fin 2 → Fin nel → Fin nqp → Option ℚ :=
  fun a b c k q =>
    if a.val = 0 then
      if b.val = 0 then
        if c.val = 0 then some (loopSum N V P.pdx x i k q)
        else some (loopSum N V P.pdy x i k q)
      else qadd (some (gbasis_u N V P x i k q)) qnan
    else
      if b.val = 0 then
        if c.val = 0 then some (loopSum N V P.pdxx x i k q)
        else some (loopSum N V P.pdxy x i k q)
      else
        if c.val = 0 then some (loopSum N V P.pdxy x i k q)
        else some (loopSum N V P.pdyy x i k q)

/-- `ElementH2.gbasis` with the Vandermonde cache made explicit.  `evalV`
stands for `np.linalg.inv(self._eval_dofs(mapping.mesh, tind=tind))`, a
function of the mesh the mapping carries; `st` is the instance attribute
`self.V` on entry.  If `st` is `none` the matrix is computed from the mesh
of this call, otherwise the cached matrix is reused unchanged; the updated
attribute is returned alongside the value and derivative arrays. -/
def gbasis {M : Type} {nel nqp : ℕ} (evalV : M → VMat) (N : ℕ) (P : PBasis)
    (x : Fin 2 → Fin nel → Fin nqp → ℚ) (i : ℕ) (st : Option VMat) (mesh : M) :
    (Fin nel → Fin nqp → ℚ) ×
      (Fin 2 → Fin 2 → Fin 2 → Fin nel → Fin nqp → Option ℚ) × Option VMat :=
  let V := match st with
    | none => evalV mesh
    | some v => v
  (gbasis_u N V P x i, gbasis_du N V P x i, some V)

end ElementH2

/-- A two-triangle mesh sharing face 2; element 0 owns faces 0,1,2 and is
the first adjacent element of each, element 1 owns faces 2,3,4. -/
def meshTwoTri : Mesh where
  nt := 2
  t := fun r c => [[0, 1], [1, 2], [2, 3]].getD r [] |>.getD c 0
  t2f := fun i k => if i = 0 then (if k = 0 then 0 else 2) else 0
  f2t0 := fun f => if f ≤ 2 then 0 else 1

/-- A constant wrapped scalar element on a one-element, one-point batch,
used as a concrete `ElementVectorH1` wrappee. -/
def wrapOne : ℕ → ((Fin 1 → Fin 1 → ℚ) × (Fin 1 → Fin 1 → Fin 1 → ℚ)) :=
  fun _ => (fun _ _ => 1, fun _ _ _ => 2)

/-- A concrete mesh-dependent DOF evaluator over naturals-as-meshes, so a
stale cached matrix is visibly the first mesh's. -/
def evalVNat : ℕ → ElementH2.VMat :=
  fun m _ _ _ => (m : ℚ)

/-- A concrete all-zero power-basis family. -/
def pbasisZero : ElementH2.PBasis :=
  ⟨fun _ _ _ => 0, fun _ _ _ => 0, fun _ _ _ => 0,
   fun _ _ _ => 0, fun _ _ _ => 0, fun _ _ _ => 0⟩

/-- A concrete all-zero physical-coordinate batch on one element and one
point. -/
def xZero : Fin 2 → Fin 1 → Fin 1 → ℚ :=
  fun _ _ _ => 0

/-- A two-tetrahedron mesh: element 0 has vertices (0,1,2,3), element 1
has vertices (2,1,3,4), so the edge `(t[0], t[1])` is ascending in element
0 and descending in element 1. -/
def meshTwoTet : Mesh where
  nt := 2
  t := fun r c => (if c = 0 then [0, 1, 2, 3] else [2, 1, 3, 4]).getD r 0
  t2f := fun _ _ => 0
  f2t0 := fun _ => 0

end Skfem

namespace Skfem

/-- C1: for every H(div) element (any reference value `phi` and reference
derivative `dphi` produced by `lbasis`), every local index `i`, element `k`
and quadrature point `l`, the global value is `(1/|det DF|) · sign ·`
(Jacobian contracted with the reference value), and the global derivative
is the reference derivative divided by `(|det DF| · sign)`, where the sign
is the per-element value computed by `ElementHdiv.orient`. -/
theorem C1_hdiv_piola {d nel nqp : ℕ} (mp : Mapping d nel nqp)
    (phi : Fin d → Fin nqp → ℚ) (dphi : Fin nqp → ℚ) (i : ℕ)
    (a : Fin d) (k : Fin nel) (l : Fin nqp) :
    ElementHdiv.gbasis_u mp phi i a k l =
      1 / |mp.detDF k l| * ((ElementHdiv.orientAt mp.mesh i k.val : ℤ) : ℚ) *
        (DFmat mp k l).mulVec (fun j => phi j l) a ∧
    ElementHdiv.gbasis_du mp dphi i k l =
      dphi l / (|mp.detDF k l| * ((ElementHdiv.orientAt mp.mesh i k.val : ℤ) : ℚ)) := by
  constructor
  · unfold ElementHdiv.gbasis_u
    simp only [Matrix.mulVec, Matrix.dotProduct, DFmat, Matrix.of_apply]
    rw [Finset.mul_sum]
    exact Finset.sum_congr rfl fun j _ => by ring
  · rfl

/-- C2: for every H1 element (any `lbasis` output), the global value is the
reference value broadcast unchanged across all mesh elements, and the
global derivative at each element and point is the transpose of the
inverse Jacobian contracted with the reference gradient — in both point
batch branches of `ElementH1.gbasis`. -/
theorem C2_h1_pullback {d nel nqp : ℕ} (mp : Mapping d nel nqp)
    (phi : Fin nqp → ℚ) (dphi : Fin d → Fin nqp → ℚ)
    (dphi3 : Fin d → Fin nel → Fin nqp → ℚ)
    (j : Fin d) (k : Fin nel) (l : Fin nqp) :
    ElementH1.gbasis_val phi k l = phi l ∧
    ElementH1.gbasis_der2 mp dphi j k l =
      ((invDFmat mp k l).transpose.mulVec (fun i => dphi i l)) j ∧
    ElementH1.gbasis_der3 mp dphi3 j k l =
      ((invDFmat mp k l).transpose.mulVec (fun i => dphi3 i k l)) j := by
  refine ⟨rfl, ?_, ?_⟩ <;>
    simp [ElementH1.gbasis_der2, ElementH1.gbasis_der3, Matrix.mulVec,
      Matrix.dotProduct, invDFmat, Matrix.transpose_apply]

/-- C5: the H(div) orientation sign of element `k` for local face `i` is
`+1` exactly when the face-to-element adjacency lists `k` as the first
adjacent element of `k`-th element's `i`-th face, and `-1` otherwise; the
returned array has one entry per mesh element and every entry is `±1`. -/
theorem C5_hdiv_orient (m : Mesh) (i k : ℕ) (tind : Option (List ℕ)) :
    (ElementHdiv.orientAt m i k = 1 ↔ m.f2t0 (m.t2f i k) = k) ∧
    (ElementHdiv.orientAt m i k = 1 ∨ ElementHdiv.orientAt m i k = -1) ∧
    (ElementHdiv.orient m i tind).length = m.nt ∧
    (∀ s ∈ ElementHdiv.orient m i tind, s = 1 ∨ s = -1) := by
  refine ⟨?_, ?_, ?_, ?_⟩
  · unfold ElementHdiv.orientAt
    split <;> simp_all
  · unfold ElementHdiv.orientAt
    split <;> simp
  · simp [ElementHdiv.orient]
  · intro s hs
    simp only [ElementHdiv.orient, List.mem_map] at hs
    obtain ⟨a, -, rfl⟩ := hs
    unfold ElementHdiv.orientAt
    split <;> simp

/-- C5 witness: the theorem applied at the concrete two-triangle mesh,
local face 0, element 0, full batch; the bounded quantifier is discharged
at the member `1`. -/
theorem C5_hdiv_orient_witness :
    (ElementHdiv.orientAt meshTwoTri 0 0 = 1 ↔
      meshTwoTri.f2t0 (meshTwoTri.t2f 0 0) = 0) ∧
    ((1 : ℤ) = 1 ∨ (1 : ℤ) = -1) := by
  have h := C5_hdiv_orient meshTwoTri 0 0 none
  exact ⟨h.1, h.2.2.2 1 (by decide)⟩

/-- C4 counterexample: `ElementTriP0` has a single local basis function
(`Nbfun = 1`, one interior DOF), yet its `lbasis` accepts the out-of-range
local index `1` and returns the constant basis instead of failing — so not
every concrete element rejects out-of-range indices. -/
theorem C4_counterexample :
    (ElementTriP0.lbasis (fun _ _ => (0 : ℚ) : Fin 2 → Fin 1 → ℚ) 1).isSome = true := rfl

/-- C4 (amended): for the concrete elements whose `lbasis` branches on the
local index (TriP1, TriRT0, Q1, Q2, TetRT0, TetN0) the accepted indices
are exactly the closed catalog `[0, Nbfun)` — out-of-range indices fail
and in-range ones do not — while the piecewise-constant elements
`ElementTriP0` and `ElementTetP0` accept every index without failing. -/
theorem C4_catalog_range {nqp : ℕ} (X2 : Fin 2 → Fin nqp → ℚ)
    (X3 : Fin 3 → Fin nqp → ℚ) (i : ℕ) :
    ((ElementTriP1.lbasis X2 i).isSome ↔ i < 3) ∧
    ((ElementTriRT0.lbasis X2 i).isSome ↔ i < 3) ∧
    ((ElementQ1.lbasis X2 i).isSome ↔ i < 4) ∧
    ((ElementQ2.lbasis X2 i).isSome ↔ i < 9) ∧
    ((ElementTetRT0.lbasis X3 i).isSome ↔ i < 4) ∧
    ((ElementTetN0.lbasis X3 i).isSome ↔ i < 6) ∧
    (ElementTriP0.lbasis X2 i).isSome ∧
    (ElementTetP0.lbasis X3 i).isSome := by
  refine ⟨?_, ?_, ?_, ?_, ?_, ?_, rfl, rfl⟩
  · rcases i with _ | _ | _ | n <;> simp [ElementTriP1.lbasis]
  · rcases i with _ | _ | _ | n <;> simp [ElementTriRT0.lbasis]
  · rcases i with _ | _ | _ | _ | n <;> simp [ElementQ1.lbasis]
  · rcases i with _ | _ | _ | _ | _ | _ | _ | _ | _ | n <;> simp [ElementQ2.lbasis]
  · rcases i with _ | _ | _ | _ | n <;> simp [ElementTetRT0.lbasis]
  · rcases i with _ | _ | _ | _ | _ | _ | n <;> simp [ElementTetN0.lbasis]

/-- Helper: the three reference gradients of `ElementTriP1` sum to zero in
each component. -/
theorem triP1_dphi_sum {nqp : ℕ} (X : Fin 2 → Fin nqp → ℚ)
    (j : Fin 2) (l : Fin nqp) :
    ∑ i ∈ Finset.range 3, triP1dphi X i j l = 0 := by
  rw [Finset.sum_range_succ, Finset.sum_range_succ, Finset.sum_range_one]
  rcases Fin.exists_fin_two.mp ⟨j, rfl⟩ with h | h <;>
    subst h <;>
    simp [triP1dphi, ElementTriP1.lbasis]

/-- C9: the degree-1 triangle basis is a partition of unity — at every
reference point the three `lbasis` values sum to `1`, the three reference
gradients sum to the zero vector, and hence the physical gradients
produced by the H1 transform sum to zero on every mesh element. -/
theorem C9_triP1_partition_of_unity {nel nqp : ℕ} (mp : Mapping 2 nel nqp)
    (X : Fin 2 → Fin nqp → ℚ) (j : Fin 2) (k : Fin nel) (l : Fin nqp) :
    (∑ i ∈ Finset.range 3, triP1phi X i l) = 1 ∧
    (∑ i ∈ Finset.range 3, triP1dphi X i j l) = 0 ∧
    (∑ i ∈ Finset.range 3, ElementH1.gbasis_der2 mp (triP1dphi X i) j k l) = 0 := by
  refine ⟨?_, triP1_dphi_sum X j l, ?_⟩
  · rw [Finset.sum_range_succ, Finset.sum_range_succ, Finset.sum_range_one]
    simp [triP1phi, ElementTriP1.lbasis]
    ring
  · unfold ElementH1.gbasis_der2
    rw [Finset.sum_comm]
    refine Finset.sum_eq_zero fun a _ => ?_
    rw [← Finset.mul_sum, triP1_dphi_sum X a l, mul_zero]

/-- C3: for a wrapped element of dimension `d > 0` and a global index
`i < d·Nbfun`, `ElementVectorH1.gbasis` decomposes `i` as
`d·(i/d) + i % d` with component `i % d < d` and base index `i/d < Nbfun`,
and its value and derivative equal the wrapped element's output at the
base index in component `i % d` and are zero in every other component. -/
theorem C3_vector_h1 {nel nqp dv : ℕ} (d i Nbfun : ℕ)
    (wrapped : ℕ → ((Fin nel → Fin nqp → ℚ) × (Fin dv → Fin nel → Fin nqp → ℚ)))
    (hd : 0 < d) (hi : i < d * Nbfun) (c : Fin d) :
    i = d * (i / d) + i % d ∧ i % d < d ∧ i / d < Nbfun ∧
    (ElementVectorH1.gbasis d i wrapped c).1 =
      (if c.val = i % d then (wrapped (i / d)).1 else fun _ _ => 0) ∧
    (ElementVectorH1.gbasis d i wrapped c).2 =
      (if c.val = i % d then (wrapped (i / d)).2 else fun _ _ _ => 0) := by
  have hmd := Nat.mod_add_div i d
  have hmod : i - d * (i / d) = i % d := by omega
  refine ⟨by omega, Nat.mod_lt _ hd, Nat.div_lt_of_lt_mul hi, ?_, ?_⟩ <;>
    simp only [ElementVectorH1.gbasis, hmod]

/-- C3 witness: the theorem at `d = 2`, `i = 3`, `Nbfun = 2` and the
constant wrapped element `wrapOne`, component `c = 1`. -/
theorem C3_vector_h1_witness :
    (3 : ℕ) = 2 * (3 / 2) + 3 % 2 ∧ 3 % 2 < 2 ∧ 3 / 2 < 2 ∧
    (ElementVectorH1.gbasis 2 3 wrapOne 1).1 =
      (if (1 : Fin 2).val = 3 % 2 then (wrapOne (3 / 2)).1 else fun _ _ => 0) ∧
    (ElementVectorH1.gbasis 2 3 wrapOne 1).2 =
      (if (1 : Fin 2).val = 3 % 2 then (wrapOne (3 / 2)).2 else fun _ _ _ => 0) :=
  C3_vector_h1 2 3 2 wrapOne (by decide) (by decide) 1

/-- C6: the claim says the orientation sign for a (mesh, local index,
element) triple is batching-invariant, and the base-class contract
(`Element.orient`, `1 + 0*tind`) makes the returned array positional in
`tind`; but `ElementHdiv.orient` and `ElementHcurl.orient` ignore `tind`
(source comment `TODO fix tind`).  On the two-triangle mesh the full-batch
sign of element 1 for local face 0 is `-1`, while the call batched with
`tind = [1]` returns the full-mesh array `[1, -1]` — its positional entry
for element 1 is `+1` and its length 2 breaks the length-1 contract; the
H(curl) edge rule fails the same way on the two-tetrahedron mesh. -/
theorem C6_orient_ignores_tind :
    ElementHdiv.orient meshTwoTri 0 (some [1]) = [1, -1] ∧
    ElementHdiv.orient meshTwoTri 0 none = [1, -1] ∧
    (ElementHdiv.orient meshTwoTri 0 (some [1])).length = 2 ∧
    (elementOrientBase meshTwoTri (some [1])).length = 1 ∧
    (ElementHdiv.orient meshTwoTri 0 (some [1])).getD 0 0 ≠
      (ElementHdiv.orient meshTwoTri 0 none).getD 1 0 ∧
    ElementHcurl.orient meshTwoTet 0 (some [1]) = [1, -1] ∧
    ElementHcurl.orient meshTwoTet 0 none = [1, -1] ∧
    (ElementHcurl.orient meshTwoTet 0 (some [1])).getD 0 0 ≠
      (ElementHcurl.orient meshTwoTet 0 none).getD 1 0 := by
  decide

/-- C7: the `InteriorBasis` integration-weight array has exactly one entry
per (mesh element, quadrature point) pair — its type — and
`dx[e, q] = |detDF(e, q)| · W[q]`. -/
theorem C7_dx_weights {d nel nqp : ℕ} (mp : Mapping d nel nqp)
    (W : Fin nqp → ℚ) (e : Fin nel) (q : Fin nqp) :
    InteriorBasis.dx mp W e q = |mp.detDF e q| * W q := rfl

/-- C8: the inverse Vandermonde matrix is computed during the first
`ElementH2.gbasis` call (from that call's mesh) and every later call
leaves the cached attribute unchanged and reuses it — even when the
mapping refers to a different mesh `m2 ≠ m1`, so the second call's value
and derivative arrays are built from the first mesh's DOF functionals
`evalV m1`. -/
theorem C8_h2_cache_stale {M : Type} {nel nqp : ℕ} (evalV : M → ElementH2.VMat)
    (N : ℕ) (P : ElementH2.PBasis)
    (x1 x2 : Fin 2 → Fin nel → Fin nqp → ℚ) (i : ℕ) (m1 m2 : M)
    (hm : m1 ≠ m2) :
    (ElementH2.gbasis evalV N P x1 i none m1).2.2 = some (evalV m1) ∧
    (ElementH2.gbasis evalV N P x2 i
        (ElementH2.gbasis evalV N P x1 i none m1).2.2 m2).2.2 = some (evalV m1) ∧
    (ElementH2.gbasis evalV N P x2 i
        (ElementH2.gbasis evalV N P x1 i none m1).2.2 m2).1 =
      ElementH2.gbasis_u N (evalV m1) P x2 i ∧
    (ElementH2.gbasis evalV N P x2 i
        (ElementH2.gbasis evalV N P x1 i none m1).2.2 m2).2.1 =
      ElementH2.gbasis_du N (evalV m1) P x2 i :=
  ⟨rfl, rfl, rfl, rfl⟩

/-- C8 witness: the theorem at two distinct meshes `0 ≠ 1` (meshes encoded
as naturals handed to the DOF evaluator `evalVNat`), an all-zero power
basis and point batch, so the matrix reused by the second call is visibly
the first mesh's. -/
theorem C8_h2_cache_stale_witness :
    (ElementH2.gbasis evalVNat 0 pbasisZero xZero 0 none 0).2.2 =
      some (evalVNat 0) ∧
    (ElementH2.gbasis evalVNat 0 pbasisZero xZero 0
        (ElementH2.gbasis evalVNat 0 pbasisZero xZero 0 none 0).2.2 1).2.2 =
      some (evalVNat 0) ∧
    (ElementH2.gbasis evalVNat 0 pbasisZero xZero 0
        (ElementH2.gbasis evalVNat 0 pbasisZero xZero 0 none 0).2.2 1).1 =
      ElementH2.gbasis_u 0 (evalVNat 0) pbasisZero xZero 0 ∧
    (ElementH2.gbasis evalVNat 0 pbasisZero xZero 0
        (ElementH2.gbasis evalVNat 0 pbasisZero xZero 0 none 0).2.2 1).2.1 =
      ElementH2.gbasis_du 0 (evalVNat 0) pbasisZero xZero 0 :=
  C8_h2_cache_stale evalVNat 0 pbasisZero xZero xZero 0 0 1 (by decide)

/-- C10: the `ElementH2.gbasis` derivative array has shape `(2, 2, 2)` plus
the point-batch shape (its type); the entries `du[0,1,0]` and `du[0,1,1]`
are NaN (`none`) at every element and point, while `du[0,0,0]`, `du[0,0,1]`
and the second-derivative block carry the accumulated loop sums, with
`du[1,1,0]` copied from `du[1,0,1]`. -/
theorem C10_h2_du_layout {nel nqp : ℕ} (N : ℕ) (V : ElementH2.VMat)
    (P : ElementH2.PBasis) (x : Fin 2 → Fin nel → Fin nqp → ℚ) (i : ℕ)
    (k : Fin nel) (q : Fin nqp) :
    ElementH2.gbasis_du N V P x i 0 1 0 k q = none ∧
    ElementH2.gbasis_du N V P x i 0 1 1 k q = none ∧
    ElementH2.gbasis_du N V P x i 0 0 0 k q =
      some (ElementH2.loopSum N V P.pdx x i k q) ∧
    ElementH2.gbasis_du N V P x i 0 0 1 k q =
      some (ElementH2.loopSum N V P.pdy x i k q) ∧
    ElementH2.gbasis_du N V P x i 1 0 0 k q =
      some (ElementH2.loopSum N V P.pdxx x i k q) ∧
    ElementH2.gbasis_du N V P x i 1 0 1 k q =
      some (ElementH2.loopSum N V P.pdxy x i k q) ∧
    ElementH2.gbasis_du N V P x i 1 1 1 k q =
      some (ElementH2.loopSum N V P.pdyy x i k q) ∧
    ElementH2.gbasis_du N V P x i 1 1 0 k q =
      ElementH2.gbasis_du N V P x i 1 0 1 k q :=
  ⟨rfl, rfl, rfl, rfl, rfl, rfl, rfl, rfl⟩

end Skfem
